import Mathlib

/-!
Verification of the streaming chat session protocol of this repository:
the `/api/chat` relay route (`src/unnamed/part_002`), the client-side
SSE chunk parser and conversation-state reducer inside `handleSubmit`
(`src/frontend/app/page.tsx`), and the input validators
(`validateMessage`, `validateThreadId`).

The JavaScript/TypeScript code is shallowly embedded: JS runtime values
are the inductive `Json` type below (with an explicit `undef`
constructor for JavaScript's `undefined`), JS truthiness, `typeof`,
property access, optional chaining and the nullish-coalescing operator
are modelled as total Lean functions, and the places where the source
can throw are modelled with `Except`/`Option` results.  Timestamps
(`new Date()` / `toISOString()`) are threaded as explicit parameters,
since the code only ever stores them.
-/

/-- JavaScript runtime values as produced by `JSON.parse` plus the
distinguished `undefined` value that property access can yield.
Numbers are modelled as integers (all numeric payloads handled by the
code are counters and page numbers). -/
inductive Json where
  | null : Json
  | undef : Json
  | bool : Bool → Json
  | num : Int → Json
  | str : String → Json
  | arr : List Json → Json
  | obj : List (String × Json) → Json

/-- JavaScript truthiness of a value. -/
def truthy : Json → Bool
  | Json.null => false
  | Json.undef => false
  | Json.bool b => b
  | Json.num n => n != 0
  | Json.str s => s ≠ ""
  | Json.arr _ => true
  | Json.obj _ => true

/-- Model of `typeof v === 'object'` (true for `null`, arrays and
objects). -/
def isTypeofObj : Json → Bool
  | Json.null => true
  | Json.arr _ => true
  | Json.obj _ => true
  | _ => false

/-- Model of `Array.isArray`. -/
def isArr : Json → Bool
  | Json.arr _ => true
  | _ => false

/-- Model of `typeof v === 'string'`. -/
def isStr : Json → Bool
  | Json.str _ => true
  | _ => false

/-- The string carried by a `Json.str` value (only used under an
`isStr` guard, mirroring the source's `typeof` checks). -/
def strVal : Json → String
  | Json.str s => s
  | _ => ""

/-- The elements of a `Json.arr` value (only used under an `isArr`
guard, mirroring the source's `Array.isArray` checks). -/
def arrElems : Json → List Json
  | Json.arr xs => xs
  | _ => []

/-- Lookup of a key in an object's field list; on duplicate keys the
last occurrence wins, as in `JSON.parse`. -/
def getFieldD (fs : List (String × Json)) (k : String) : Json :=
  (fs.foldl (fun acc p => if p.1 = k then some p.2 else acc) none).getD Json.undef

/-- Total model of JS property access `v[k]`: objects yield the field
or `undefined`; primitives and arrays yield `undefined` for the
(non-index) keys the code uses.  Access on `null`/`undefined` -- which
throws in JS -- is only reachable here under guards that exclude it;
the throwing behaviour itself is modelled by `jsGetE`. -/
def jsField : Json → String → Json
  | Json.obj fs, k => getFieldD fs k
  | _, _ => Json.undef

/-- Checked model of JS property access: reading a property of
`null` or `undefined` throws a `TypeError`. -/
def jsGetE (v : Json) (k : String) : Except String Json :=
  match v with
  | Json.null => Except.error "TypeError"
  | Json.undef => Except.error "TypeError"
  | _ => Except.ok (jsField v k)

/-- Whether a value is JavaScript's `null`. -/
def isNullJ : Json → Bool
  | Json.null => true
  | _ => false

/-- Model of `v === 'lit'` for a string literal: true exactly when `v`
is that string (strict equality never coerces). -/
def jsEqStr (v : Json) (lit : String) : Bool :=
  match v with
  | Json.str s => s = lit
  | _ => false

/-- Model of optional chaining `v?.k`. -/
def jsOpt (v : Json) (k : String) : Json :=
  match v with
  | Json.null => Json.undef
  | Json.undef => Json.undef
  | _ => jsField v k

/-- Model of the nullish-coalescing operator `a ?? b`. -/
def nullish (a b : Json) : Json :=
  match a with
  | Json.null => b
  | Json.undef => b
  | _ => a

/-- Model of the `'k' in v` operator on the object/array values the
source guards it with. -/
def hasField : Json → String → Bool
  | Json.obj fs, k => fs.any (fun p => p.1 = k)
  | _, _ => false

/-- Model of `data[data.length - 1]` on an array (`undefined` when the
array is empty; the source only applies this under `Array.isArray`). -/
def jsLast : Json → Json
  | Json.arr xs => (xs.getLast?).getD Json.undef
  | _ => Json.undef

/-- Model of `s.startsWith('\x7b')`, the serialized-object heuristic of
the partial-message branch. -/
def startsWithBrace (s : String) : Bool :=
  match s.toList with
  | c :: _ => c = '\x7b'
  | [] => false

theorem truthy_str (s : String) : truthy (Json.str s) = true ↔ s ≠ "" := by
  simp [truthy]

/-!
Client-side conversation state and the session state reducer, embedded
from the SSE handling loop of `handleSubmit` in
`src/frontend/app/page.tsx` (lines 113-199).
-/

/-- Message role, from the `role: 'user' | 'assistant'` field of the
`messages` state in `page.tsx`. -/
inductive Role where
  | user : Role
  | assistant : Role
deriving DecidableEq

/-- One entry of the `messages` React state:
`{ role, content, sources?, timestamp? }`.  `sources` and `timestamp`
are optional exactly as in the source; retrieved documents are kept as
opaque `Json` values (`PDFDocument`). -/
structure Msg where
  role : Role
  content : String
  sources : Option (List Json)
  timestamp : Option Nat

/-- The state the reducer folds events into: the `messages` array plus
the pending-citations snapshot `lastRetrievedDocsRef.current`. -/
structure ClientState where
  messages : List Msg
  pending : List Json

/-- Model of the in-place update `newArr[newArr.length - 1] := f(...)`
of the last array element. -/
def mapLast (f : Msg → Msg) : List Msg → List Msg
  | [] => []
  | [m] => [f m]
  | m :: rest => m :: mapLast f rest

/-- Model of the `setMessages` callback of the partial-message branch
(page.tsx lines 144-156): when the array is non-empty and its last
element has assistant role, that element's `content` is replaced by the
partial text, its `sources` by the pending snapshot, and its
`timestamp` by `new Date()`; otherwise the state is unchanged. -/
def updTrailing (s : ClientState) (c : String) (now : Nat) : ClientState :=
  match s.messages.getLast? with
  | some m =>
      if m.role = Role.assistant then
        ClientState.mk
          (mapLast (fun mm => Msg.mk mm.role c (some s.pending) (some now)) s.messages)
          s.pending
      else s
  | none => s

/-- The `messages/partial` branch (page.tsx lines 134-159), applied to
the event's `data` payload. -/
def partBranch (s : ClientState) (data : Json) (now : Nat) : ClientState :=
  if isArr data then
    let lastObj := jsLast data
    if jsEqStr (jsOpt lastObj "type") "ai" then
      match nullish (jsField lastObj "content") (Json.str "") with
      | Json.str c => if startsWithBrace c then s else updTrailing s c now
      | _ => s
    else s
  else s

/-- The `updates` branch (page.tsx lines 160-173), applied to the
event's `data` payload: a well-formed `retrieveDocuments.documents`
list replaces the pending snapshot, anything else resets it to `[]`. -/
def updBranch (s : ClientState) (data : Json) : ClientState :=
  if truthy data && isTypeofObj data && hasField data "retrieveDocuments"
      && truthy (jsField data "retrieveDocuments")
      && isArr (jsField (jsField data "retrieveDocuments") "documents") then
    ClientState.mk s.messages
      (arrElems (jsField (jsField data "retrieveDocuments") "documents"))
  else
    ClientState.mk s.messages []

/-- The session state reducer as a pure value function of
(state, parsed event, clock reading): the event dispatch of page.tsx
lines 132-176.  The throwing destructuring `const {event, data} =
sseEvent` is modelled separately by `reduceE`; this function is its
value on every non-throwing input. -/
def reduce (s : ClientState) (ev : Json) (now : Nat) : ClientState :=
  let event := jsField ev "event"
  let data := jsField ev "data"
  if jsEqStr event "messages/partial" then
    partBranch s data now
  else if jsEqStr event "updates" && truthy data then
    updBranch s data
  else s

/-- The same dispatch with JavaScript's throwing property reads made
explicit: destructuring `sseEvent` throws a `TypeError` when the parsed
event is `null` (`JSON.parse` can produce it), and `lastObj.content` is
a throwing read guarded by the `lastObj?.type === 'ai'` test. -/
def reduceE (s : ClientState) (ev : Json) (now : Nat) :
    Except String ClientState :=
  (jsGetE ev "event").bind (fun event =>
    (jsGetE ev "data").bind (fun data =>
      if jsEqStr event "messages/partial" then
        if isArr data then
          let lastObj := jsLast data
          if jsEqStr (jsOpt lastObj "type") "ai" then
            (jsGetE lastObj "content").bind (fun c0 =>
              match nullish c0 (Json.str "") with
              | Json.str c =>
                  if startsWithBrace c then Except.ok s
                  else Except.ok (updTrailing s c now)
              | _ => Except.ok s)
          else Except.ok s
        else Except.ok s
      else if jsEqStr event "updates" && truthy data then
        Except.ok (updBranch s data)
      else Except.ok s))

/-- The fixed human-readable failure text of the transport-error
handler (page.tsx lines 188-194). -/
def failMsg : String :=
  "Sorry, there was an error processing your message. Please try again."

/-- Model of the catch handler of `handleSubmit` (page.tsx lines
179-194): it unconditionally writes `failMsg` and a fresh timestamp
into the last message; on an empty array the JS write
`newArr[newArr.length - 1].content = ...` would throw, modelled as
`none`. -/
def catchApply (s : ClientState) (now : Nat) : Option ClientState :=
  match s.messages with
  | [] => none
  | _ :: _ =>
      some (ClientState.mk
        (mapLast (fun m => Msg.mk m.role failMsg m.sources (some now)) s.messages)
        s.pending)

/-- Content of the trailing message, if any. -/
def lastContent (s : ClientState) : Option String :=
  (s.messages.getLast?).map Msg.content

/-- Citation list of the trailing message (`none` when there is no
message or its `sources` field is unset). -/
def lastSources (s : ClientState) : Option (List Json) :=
  match s.messages.getLast? with
  | some m => m.sources
  | none => none

/-- Timestamp of the trailing message. -/
def lastStamp (s : ClientState) : Option Nat :=
  match s.messages.getLast? with
  | some m => m.timestamp
  | none => none

/-- The trailing message exists and has assistant role (the guard of
the partial-message update). -/
def hasTrailingAssistant (s : ClientState) : Bool :=
  match s.messages.getLast? with
  | some m => m.role = Role.assistant
  | none => false

/-- A well-formed partial-message event carrying plain text `c`: the
`event` field is `messages/partial`, `data` is an array whose last
element has `type` `'ai'` and a `content` that coalesces to the plain
string `c`, and `c` does not look like a serialized object. -/
def goodPart (ev : Json) (c : String) : Prop :=
  jsEqStr (jsField ev "event") "messages/partial" = true ∧
  isArr (jsField ev "data") = true ∧
  jsEqStr (jsOpt (jsLast (jsField ev "data")) "type") "ai" = true ∧
  nullish (jsField (jsLast (jsField ev "data")) "content") (Json.str "")
    = Json.str c ∧
  startsWithBrace c = false

/-- The condition of the `updates` branch that accepts a documents
payload, on the event's `data` value. -/
def wfDocs (data : Json) : Prop :=
  truthy data = true ∧ isTypeofObj data = true ∧
  hasField data "retrieveDocuments" = true ∧
  truthy (jsField data "retrieveDocuments") = true ∧
  isArr (jsField (jsField data "retrieveDocuments") "documents") = true

/-- The documents list carried by an `updates` event. -/
def docsOf (ev : Json) : Json :=
  jsField (jsField (jsField ev "data") "retrieveDocuments") "documents"

/-- Folding a list of (event, clock) pairs through the reducer. -/
def reduceList (s : ClientState) (evs : List (Json × Nat)) : ClientState :=
  evs.foldl (fun st p => reduce st p.1 p.2) s

/-!
Client-side chunk parsing, embedded from the read loop of
`handleSubmit` (page.tsx lines 113-130): each network read is decoded
to text, split on newlines, empty lines are dropped, lines that do not
start with `data: ` are skipped, and the rest of each remaining line is
fed to `JSON.parse`, a parse failure dropping the line.  Bytes are
modelled as characters.  `JSON.parse` itself is a platform builtin;
`jsonParse` below models it on the frame grammar the wire uses
(integers, strings with the common escapes, booleans, `null`, arrays
and objects; `\u` escapes and fractional numbers are outside the
model).
-/

/-- Model of `chunkStr.split('\n')`. -/
def splitNl : List Char → List (List Char)
  | [] => [[]]
  | c :: cs =>
      if c = '\n' then [] :: splitNl cs
      else
        match splitNl cs with
        | [] => [[c]]
        | l :: ls => (c :: l) :: ls

/-- Whether a character list begins with the given marker. -/
def startsWithChars : List Char → List Char → Bool
  | [], _ => true
  | _ :: _, [] => false
  | p :: ps, c :: cs => p = c && startsWithChars ps cs

/-- The frame marker `data: ` (six characters). -/
def dataMarker : List Char := ['d', 'a', 't', 'a', ':', ' ']

/-- JSON insignificant whitespace. -/
def jsonWs (c : Char) : Bool :=
  c = ' ' || c = '\t' || c = '\n' || c = '\r'

/-- Skip insignificant whitespace. -/
def skipWs : List Char → List Char
  | [] => []
  | c :: cs => if jsonWs c then skipWs cs else c :: cs

/-- Decimal digit test. -/
def isDigitCh (c : Char) : Bool := '0' ≤ c && c ≤ '9'

/-- Accumulate a run of decimal digits. -/
def digitsToNat (acc : Nat) : List Char → (Nat × List Char)
  | [] => (acc, [])
  | c :: cs =>
      if isDigitCh c then digitsToNat (acc * 10 + (c.toNat - 48)) cs
      else (acc, c :: cs)

/-- The character denoted by a JSON escape `\\c`, when legal. -/
def escChar (e : Char) : Option Char :=
  if e = 'n' then some '\n'
  else if e = 't' then some '\t'
  else if e = 'r' then some '\r'
  else if e = '"' then some '"'
  else if e = '\\' then some '\\'
  else if e = '/' then some '/'
  else if e = 'b' then some '\x08'
  else if e = 'f' then some '\x0c'
  else none

/-- Parse the body of a JSON string literal (after the opening quote),
returning the content and the remaining input. -/
def pStrChars : List Char → Option (List Char × List Char)
  | [] => none
  | '"' :: cs => some ([], cs)
  | '\\' :: e :: cs => do
      let c ← escChar e
      let (body, rest) ← pStrChars cs
      pure (c :: body, rest)
  | '\\' :: [] => none
  | c :: cs => do
      let (body, rest) ← pStrChars cs
      pure (c :: body, rest)

/-- Parse an unsigned JSON integer (rejecting a leading zero followed
by more digits, as `JSON.parse` does). -/
def pNat (cs : List Char) : Option (Nat × List Char) :=
  match cs with
  | c :: rest =>
      if isDigitCh c then
        if c = '0' then
          match rest with
          | d :: _ => if isDigitCh d then none else some (0, rest)
          | [] => some (0, [])
        else some (digitsToNat 0 cs)
      else none
  | [] => none

mutual

/-- Parse one JSON value (fuel-indexed recursive descent). -/
def pVal : Nat → List Char → Option (Json × List Char)
  | 0, _ => none
  | Nat.succ f, cs =>
      match skipWs cs with
      | 'n' :: 'u' :: 'l' :: 'l' :: rest => some (Json.null, rest)
      | 't' :: 'r' :: 'u' :: 'e' :: rest => some (Json.bool true, rest)
      | 'f' :: 'a' :: 'l' :: 's' :: 'e' :: rest => some (Json.bool false, rest)
      | '"' :: rest => do
          let (body, rest') ← pStrChars rest
          pure (Json.str (String.mk body), rest')
      | '[' :: rest =>
          (match skipWs rest with
           | ']' :: rest' => some (Json.arr [], rest')
           | _ => do
              let (xs, rest') ← pElems f rest
              pure (Json.arr xs, rest'))
      | '\x7b' :: rest =>
          (match skipWs rest with
           | '\x7d' :: rest' => some (Json.obj [], rest')
           | _ => do
              let (fs, rest') ← pFields f rest
              pure (Json.obj fs, rest'))
      | '-' :: rest => do
          let (n, rest') ← pNat rest
          pure (Json.num (-(n : Int)), rest')
      | c :: rest =>
          if isDigitCh c then do
            let (n, rest') ← pNat (c :: rest)
            pure (Json.num (n : Int), rest')
          else none
      | [] => none

/-- Parse one or more comma-separated array elements up to `]`. -/
def pElems : Nat → List Char → Option (List Json × List Char)
  | 0, _ => none
  | Nat.succ f, cs => do
      let (x, rest) ← pVal f cs
      match skipWs rest with
      | ',' :: rest' => do
          let (xs, rest'') ← pElems f rest'
          pure (x :: xs, rest'')
      | ']' :: rest' => pure ([x], rest')
      | _ => none

/-- Parse one or more comma-separated `"key": value` members up to
`\x7d`. -/
def pFields : Nat → List Char → Option (List (String × Json) × List Char)
  | 0, _ => none
  | Nat.succ f, cs =>
      match skipWs cs with
      | '"' :: rest => do
          let (key, rest') ← pStrChars rest
          match skipWs rest' with
          | ':' :: rest'' => do
              let (v, rest3) ← pVal f rest''
              match skipWs rest3 with
              | ',' :: rest4 => do
                  let (fs, rest5) ← pFields f rest4
                  pure ((String.mk key, v) :: fs, rest5)
              | '\x7d' :: rest4 => pure ([(String.mk key, v)], rest4)
              | _ => none
          | _ => none
      | _ => none

end

/-- Model of `JSON.parse` on a character list: one value followed only
by whitespace, or failure. -/
def jsonParse (cs : List Char) : Option Json :=
  match pVal (cs.length + 1) cs with
  | some (j, rest) => if skipWs rest = [] then some j else none
  | none => none

/-- The event a single line contributes: lines not starting with
`data: ` are skipped (`continue`), the rest of the line is fed to
`JSON.parse`, and a parse failure drops the line (`catch`/`continue`). -/
def lineEvent (line : List Char) : Option Json :=
  if startsWithChars dataMarker line then jsonParse (line.drop 6) else none

/-- The parsed events one network read contributes, embedded from
page.tsx lines 117-130: split the decoded chunk on newlines, drop
empty lines (`filter(Boolean)`), then keep each line's parsed frame. -/
def parseChunk (cs : List Char) : List Json :=
  ((splitNl cs).filter (fun l => !l.isEmpty)).filterMap lineEvent

/-!
Server-side stream relay, embedded from the `ReadableStream` `start`
callback of `POST` in `src/unnamed/part_002` (lines 152-225).  The
downstream side effects are modelled as a trace of primitive actions:
`controller.enqueue` of one wire frame, and `controller.close`.  The
upstream `for await` loop is a chunk list followed by an optional
thrown error (the point where the iteration fails); `dev` is
`process.env.NODE_ENV === 'development'`; `ts` stands for the
`new Date().toISOString()` stamps.
-/

/-- A thrown JavaScript value: an `Error` carrying a message, or a
non-`Error` value. -/
inductive JsErr where
  | withMsg : String → JsErr
  | notError : JsErr

/-- One wire frame of the downstream SSE stream. -/
inductive Frame where
  | connection : String → Frame
  | dataF : Json → Frame
  | completion : String → Nat → Frame
  | errorF : String → String → Frame

/-- One primitive action on the downstream controller. -/
inductive RAction where
  | enq : Frame → RAction
  | close : RAction

/-- The message text `error instanceof Error ? error.message :
'Unknown streaming error'`. -/
def errText : JsErr → String
  | JsErr.withMsg m => m
  | JsErr.notError => "Unknown streaming error"

/-- The forwarding loop with the running counter (part_002 lines
155-201): each chunk bumps `messageCount`; past the 1,000 ceiling the
loop breaks straight to the completion frame; valid object chunks are
re-serialized and enqueued, other chunks are only logged; a thrown
upstream error replaces the completion frame by the error frame with
redacted details. -/
def relayGo (ts : String) (dev : Bool) (upErr : Option JsErr) :
    Nat → List Json → List RAction
  | count, [] =>
      match upErr with
      | none => [RAction.enq (Frame.completion ts count)]
      | some e =>
          [RAction.enq (Frame.errorF
            (if dev then errText e else "Please try again") ts)]
  | count, c :: rest =>
      if count + 1 > 1000 then [RAction.enq (Frame.completion ts (count + 1))]
      else if truthy c && isTypeofObj c then
        RAction.enq (Frame.dataF c) :: relayGo ts dev upErr (count + 1) rest
      else relayGo ts dev upErr (count + 1) rest

/-- The full trace of the `start` callback on the 200 path: the
synthetic connection frame first, then the forwarding loop and its
terminal frame, then the `finally` close. -/
def relayTrace (ts : String) (dev : Bool) (chunks : List Json)
    (upErr : Option JsErr) : List RAction :=
  RAction.enq (Frame.connection ts) ::
    (relayGo ts dev upErr 0 chunks ++ [RAction.close])

/-- Whether an action forwards an upstream chunk. -/
def isDataAct : RAction → Bool
  | RAction.enq (Frame.dataF _) => true
  | _ => false

/-- Whether an action enqueues the synthetic error frame. -/
def isErrAct : RAction → Bool
  | RAction.enq (Frame.errorF _ _) => true
  | _ => false

/-- Whether an action closes the controller. -/
def isCloseAct : RAction → Bool
  | RAction.close => true
  | _ => false

/-- Number of forwarded upstream frames in a trace. -/
def dataCount (tr : List RAction) : Nat := (tr.filter isDataAct).length

/-- Number of error frames in a trace. -/
def errCount (tr : List RAction) : Nat := (tr.filter isErrAct).length

/-- Number of close actions in a trace. -/
def closeCount (tr : List RAction) : Nat := (tr.filter isCloseAct).length

/-- The JSON payload each synthetic frame is serialized to (the
`JSON.stringify` bodies in part_002); forwarded chunks are serialized
verbatim. -/
def frameToJson : Frame → Json
  | Frame.connection ts =>
      Json.obj [("type", Json.str "connection"),
        ("message", Json.str "Connected to chat service"),
        ("timestamp", Json.str ts)]
  | Frame.dataF j => j
  | Frame.completion ts n =>
      Json.obj [("type", Json.str "completion"),
        ("message", Json.str "Chat response completed"),
        ("timestamp", Json.str ts),
        ("totalMessages", Json.num (n : Int))]
  | Frame.errorF d ts =>
      Json.obj [("type", Json.str "error"),
        ("error", Json.str "Connection interrupted"),
        ("details", Json.str d),
        ("timestamp", Json.str ts)]

/-!
Input validators and the response classification of `POST /chat`,
embedded from `src/unnamed/part_002` lines 23-58 and 60-292.
-/

/-- The `{ valid: boolean; error?: string }` result shape of the
validators. -/
structure VResult where
  valid : Bool
  error : Option String
deriving DecidableEq

/-- Model of `message.trim()`: JavaScript trims Unicode whitespace;
the model covers the ASCII whitespace characters. -/
def wsCh (c : Char) : Bool :=
  c = ' ' || c = '\t' || c = '\n' || c = '\r' || c = '\x0b' || c = '\x0c'

/-- Trim on character lists. -/
def trimCh (l : List Char) : List Char :=
  ((l.dropWhile wsCh).reverse.dropWhile wsCh).reverse

/-- Trim on strings. -/
def jsTrim (s : String) : String := String.mk (trimCh s.toList)

/-- `validateMessage` (part_002 lines 23-42), over an arbitrary JS
value as in the source (`message: any`). -/
def validateMessage (message : Json) : VResult :=
  if !truthy message then VResult.mk false (some "Message is required")
  else if !isStr message then VResult.mk false (some "Message must be a string")
  else
    let trimmedMessage := jsTrim (strVal message)
    if trimmedMessage = "" then VResult.mk false (some "Message cannot be empty")
    else if 10000 < trimmedMessage.length then
      VResult.mk false
        (some "Message is too long. Maximum 10,000 characters allowed.")
    else VResult.mk true none

/-- `validateThreadId` (part_002 lines 44-58). -/
def validateThreadId (threadId : Json) : VResult :=
  if !truthy threadId then VResult.mk false (some "Thread ID is required")
  else if !isStr threadId then
    VResult.mk false (some "Thread ID must be a string")
  else if (strVal threadId).length < 1 || 100 < (strVal threadId).length then
    VResult.mk false (some "Invalid Thread ID format")
  else VResult.mk true none

/-- The typed errors the `POST` handler throws: `ValidationError`
(always constructed with its default status 400), `ChatError` with an
explicit status, or any other thrown value. -/
inductive ThrownErr where
  | vErr : String → ThrownErr
  | cErr : String → Nat → ThrownErr
  | other : JsErr → ThrownErr

/-- The inputs that determine the `POST /chat` outcome: the parsed
body (`none` when `req.json()` rejects), whether
`LANGGRAPH_RETRIEVAL_ASSISTANT_ID` is set, whether
`createServerClient()` throws, and whether the upstream
`runs.stream(...)` call rejects (with the thrown value). -/
structure ChatReq where
  body : Option Json
  envAssistant : Bool
  clientInitErr : Option JsErr
  openErr : Option JsErr

/-- Whether `needle` occurs contiguously in a character list (model of
`String.includes`). -/
def containsChars (needle : List Char) : List Char → Bool
  | [] => startsWithChars needle []
  | c :: cs => startsWithChars needle (c :: cs) || containsChars needle cs

/-- Model of `s.includes(pat)`. -/
def strContainsSub (s pat : String) : Bool :=
  containsChars pat.toList s.toList

/-- Classification of an upstream open-failure (part_002 lines
126-149): a message containing `thread not found` becomes a 404
`ChatError`, one containing `quota` or `rate limit` a 429, anything
else (including non-`Error` values) the 503 "unable to start". -/
def openErrKind (e : JsErr) : ThrownErr :=
  match e with
  | JsErr.withMsg m =>
      if strContainsSub m "thread not found" then
        ThrownErr.cErr
          "Chat session not found. Please start a new conversation." 404
      else if strContainsSub m "quota" || strContainsSub m "rate limit" then
        ThrownErr.cErr
          "Service temporarily unavailable due to high demand. Please try again in a few minutes."
          429
      else
        ThrownErr.cErr "Unable to start chat session. Please try again." 503
  | JsErr.notError =>
      ThrownErr.cErr "Unable to start chat session. Please try again." 503

/-- The response shape of `POST /chat`: the 200 SSE stream, or a JSON
error body `{success:false, error, type}` with a status code. -/
inductive ChatResp where
  | streamOk : ChatResp
  | jsonErr : Nat → String → String → ChatResp
deriving DecidableEq

/-- The `try` block of the `POST` handler (part_002 lines 63-240) up to
the point the 200 stream is returned, with every `throw` made explicit:
body parse failure and validator failures throw `ValidationError`;
missing configuration, client initialization failure and upstream open
failure throw classified `ChatError`s; destructuring a `null` body
throws a plain `TypeError`. -/
def tryChat (r : ChatReq) : Except ThrownErr Unit :=
  match r.body with
  | none =>
      Except.error (ThrownErr.vErr
        "Invalid request format. Please ensure you are sending valid JSON.")
  | some b =>
      if isNullJ b then Except.error (ThrownErr.other (JsErr.withMsg
        "Cannot destructure property 'message' of 'body' as it is null."))
      else
        let mv := validateMessage (jsField b "message")
        if mv.valid = false then Except.error (ThrownErr.vErr (mv.error.getD ""))
        else
          let tv := validateThreadId (jsField b "threadId")
          if tv.valid = false then Except.error (ThrownErr.vErr (tv.error.getD ""))
          else if r.envAssistant = false then
            Except.error (ThrownErr.cErr
              "Service configuration error: Chat service is not properly configured"
              503)
          else
            match r.clientInitErr with
            | some _ =>
                Except.error (ThrownErr.cErr
                  "Failed to initialize chat service. Please try again later." 503)
            | none =>
                match r.openErr with
                | some e => Except.error (openErrKind e)
                | none => Except.ok ()

/-- The catch clause of the `POST` handler (part_002 lines 242-292):
`ValidationError` yields its status (always 400) with body type
`validation_error`, `ChatError` its status with type `chat_error`, and
any other thrown value a 500 with type `server_error`. -/
def classifyThrown : ThrownErr → ChatResp
  | ThrownErr.vErr m => ChatResp.jsonErr 400 "validation_error" m
  | ThrownErr.cErr m st => ChatResp.jsonErr st "chat_error" m
  | ThrownErr.other _ =>
      ChatResp.jsonErr 500 "server_error"
        "An unexpected error occurred while processing your request."

/-- The observable outcome of one `POST /chat` request. -/
def postChat (r : ChatReq) : ChatResp :=
  match tryChat r with
  | Except.ok _ => ChatResp.streamOk
  | Except.error e => classifyThrown e

/-!
Helper lemmas about the reducer.
-/

theorem jsEqStr_eq_true {v : Json} {a : String} (h : jsEqStr v a = true) :
    v = Json.str a := by
  cases v <;> simp [jsEqStr] at h ⊢
  exact h

theorem jsEqStr_ne {v : Json} {a b : String} (h : jsEqStr v a = true)
    (hab : b ≠ a) : jsEqStr v b = false := by
  rw [jsEqStr_eq_true h]
  simp [jsEqStr]
  intro hba
  exact hab hba.symm

theorem mapLast_getLast? (f : Msg → Msg) (l : List Msg) :
    (mapLast f l).getLast? = l.getLast?.map f := by
  induction l with
  | nil => rfl
  | cons m rest ih =>
      cases rest with
      | nil => rfl
      | cons m' rest' =>
          rw [show mapLast f (m :: m' :: rest') = m :: mapLast f (m' :: rest')
            from rfl]
          rw [List.getLast?_cons_cons, ← ih]
          cases hml : mapLast f (m' :: rest') with
          | nil => cases rest' <;> simp [mapLast] at hml
          | cons y ys => rw [List.getLast?_cons_cons]

theorem hta_iff (s : ClientState) :
    hasTrailingAssistant s = true ↔
      ∃ m, s.messages.getLast? = some m ∧ m.role = Role.assistant := by
  unfold hasTrailingAssistant
  cases h : s.messages.getLast? with
  | none => simp
  | some m => simp

theorem updTrailing_eq (s : ClientState) (c : String) (now : Nat)
    (hs : hasTrailingAssistant s = true) :
    updTrailing s c now =
      ClientState.mk
        (mapLast (fun mm => Msg.mk mm.role c (some s.pending) (some now))
          s.messages)
        s.pending := by
  obtain ⟨m, hm, hrole⟩ := (hta_iff s).1 hs
  unfold updTrailing
  rw [hm]
  simp [hrole]

theorem reduce_goodPart {ev : Json} {c : String} (s : ClientState) (now : Nat)
    (h : goodPart ev c) (hs : hasTrailingAssistant s = true) :
    reduce s ev now =
      ClientState.mk
        (mapLast (fun mm => Msg.mk mm.role c (some s.pending) (some now))
          s.messages)
        s.pending := by
  obtain ⟨h1, h2, h3, h4, h5⟩ := h
  simp only [reduce, partBranch, h1, h2, h3, h4, h5]
  simp [updTrailing_eq s c now hs]

theorem reduce_goodPart_lastContent {ev : Json} {c : String} (s : ClientState)
    (now : Nat) (h : goodPart ev c) (hs : hasTrailingAssistant s = true) :
    lastContent (reduce s ev now) = some c := by
  obtain ⟨m, hm, _⟩ := (hta_iff s).1 hs
  rw [reduce_goodPart s now h hs]
  unfold lastContent
  simp [mapLast_getLast?, hm]

theorem reduce_goodPart_lastSources {ev : Json} {c : String} (s : ClientState)
    (now : Nat) (h : goodPart ev c) (hs : hasTrailingAssistant s = true) :
    lastSources (reduce s ev now) = some s.pending := by
  obtain ⟨m, hm, _⟩ := (hta_iff s).1 hs
  rw [reduce_goodPart s now h hs]
  unfold lastSources
  simp [mapLast_getLast?, hm]

theorem reduce_goodPart_lastStamp {ev : Json} {c : String} (s : ClientState)
    (now : Nat) (h : goodPart ev c) (hs : hasTrailingAssistant s = true) :
    lastStamp (reduce s ev now) = some now := by
  obtain ⟨m, hm, _⟩ := (hta_iff s).1 hs
  rw [reduce_goodPart s now h hs]
  unfold lastStamp
  simp [mapLast_getLast?, hm]

theorem reduce_goodPart_keeps {ev : Json} {c : String} (s : ClientState)
    (now : Nat) (h : goodPart ev c) (hs : hasTrailingAssistant s = true) :
    hasTrailingAssistant (reduce s ev now) = true := by
  obtain ⟨m, hm, hrole⟩ := (hta_iff s).1 hs
  rw [reduce_goodPart s now h hs]
  apply (hta_iff _).2
  refine ⟨Msg.mk m.role c (some s.pending) (some now), ?_, hrole⟩
  simp [mapLast_getLast?, hm]

theorem reduce_updates_sel {ev : Json} (s : ClientState) (now : Nat)
    (h1 : jsEqStr (jsField ev "event") "updates" = true)
    (htr : truthy (jsField ev "data") = true) :
    reduce s ev now = updBranch s (jsField ev "data") := by
  have hne : jsEqStr (jsField ev "event") "messages/partial" = false :=
    jsEqStr_ne h1 (by decide)
  simp only [reduce, hne, h1, htr]
  simp

theorem updBranch_wf {data : Json} {ds : List Json} (s : ClientState)
    (hwf : wfDocs data)
    (hds : jsField (jsField data "retrieveDocuments") "documents"
      = Json.arr ds) :
    updBranch s data = ClientState.mk s.messages ds := by
  obtain ⟨w1, w2, w3, w4, w5⟩ := hwf
  unfold updBranch
  split
  · rw [hds]; rfl
  · next hc => exact absurd (by simp [w1, w2, w3, w4, w5]) hc

theorem updBranch_malformed {data : Json} (s : ClientState)
    (hwf : ¬ wfDocs data) :
    updBranch s data = ClientState.mk s.messages [] := by
  unfold updBranch
  split
  · next hc =>
      exfalso
      apply hwf
      simp only [Bool.and_eq_true] at hc
      exact ⟨hc.1.1.1.1, hc.1.1.1.2, hc.1.1.2, hc.1.2, hc.2⟩
  · rfl

theorem reduce_updates_wf {ev : Json} {ds : List Json} (s : ClientState)
    (now : Nat) (h1 : jsEqStr (jsField ev "event") "updates" = true)
    (hwf : wfDocs (jsField ev "data"))
    (hds : docsOf ev = Json.arr ds) :
    reduce s ev now = ClientState.mk s.messages ds := by
  rw [reduce_updates_sel s now h1 hwf.1]
  exact updBranch_wf s hwf hds

theorem reduce_updates_malformed {ev : Json} (s : ClientState) (now : Nat)
    (h1 : jsEqStr (jsField ev "event") "updates" = true)
    (htr : truthy (jsField ev "data") = true)
    (hwf : ¬ wfDocs (jsField ev "data")) :
    reduce s ev now = ClientState.mk s.messages [] := by
  rw [reduce_updates_sel s now h1 htr]
  exact updBranch_malformed s hwf

theorem reduce_updates_falsy {ev : Json} (s : ClientState) (now : Nat)
    (h1 : jsEqStr (jsField ev "event") "updates" = true)
    (htr : truthy (jsField ev "data") = false) :
    reduce s ev now = s := by
  have hne : jsEqStr (jsField ev "event") "messages/partial" = false :=
    jsEqStr_ne h1 (by decide)
  simp only [reduce, hne, h1, htr]
  simp

theorem reduce_unknown {ev : Json} (s : ClientState) (now : Nat)
    (h1 : jsEqStr (jsField ev "event") "messages/partial" = false)
    (h2 : jsEqStr (jsField ev "event") "updates" = false) :
    reduce s ev now = s := by
  simp only [reduce, h1, h2]
  simp

theorem jsGetE_ok {v : Json} (h1 : v ≠ Json.null) (h2 : v ≠ Json.undef)
    (k : String) : jsGetE v k = Except.ok (jsField v k) := by
  cases v <;> first
    | rfl
    | exact absurd rfl h1
    | exact absurd rfl h2

theorem jsOpt_str_ne {v : Json} {k lit : String}
    (h : jsEqStr (jsOpt v k) lit = true) :
    v ≠ Json.null ∧ v ≠ Json.undef := by
  constructor <;> intro hv <;> subst hv <;> simp [jsOpt, jsEqStr] at h

theorem reduceE_eq_ok (s : ClientState) (ev : Json) (now : Nat)
    (h1 : ev ≠ Json.null) (h2 : ev ≠ Json.undef) :
    reduceE s ev now = Except.ok (reduce s ev now) := by
  unfold reduceE reduce partBranch
  rw [jsGetE_ok h1 h2 "event", jsGetE_ok h1 h2 "data"]
  simp only [Except.bind]
  split
  · split
    · split
      · next hty =>
          obtain ⟨hn, hu⟩ := jsOpt_str_ne hty
          rw [jsGetE_ok hn hu "content"]
          simp only [Except.bind]
          split <;> first | rfl | (split <;> rfl)
      · rfl
    · rfl
  · split <;> rfl


/-!
Helper lemmas about the relay trace.
-/

theorem dataCount_cons_false {a : RAction} (h : isDataAct a = false)
    (l : List RAction) : dataCount (a :: l) = dataCount l := by
  simp [dataCount, List.filter_cons, h]

theorem dataCount_cons_true {a : RAction} (h : isDataAct a = true)
    (l : List RAction) : dataCount (a :: l) = dataCount l + 1 := by
  simp [dataCount, List.filter_cons, h]

theorem errCount_cons_false {a : RAction} (h : isErrAct a = false)
    (l : List RAction) : errCount (a :: l) = errCount l := by
  simp [errCount, List.filter_cons, h]

theorem closeCount_cons_false {a : RAction} (h : isCloseAct a = false)
    (l : List RAction) : closeCount (a :: l) = closeCount l := by
  simp [closeCount, List.filter_cons, h]

theorem relayGo_ne_nil (ts : String) (dev : Bool) (upErr : Option JsErr) :
    ∀ (chunks : List Json) (count : Nat),
      relayGo ts dev upErr count chunks ≠ []
  | [], count => by cases upErr <;> simp [relayGo]
  | c :: rest, count => by
      unfold relayGo
      split
      · simp
      · split
        · simp
        · exact relayGo_ne_nil ts dev upErr rest (count + 1)

theorem relayGo_closeCount (ts : String) (dev : Bool) (upErr : Option JsErr) :
    ∀ (chunks : List Json) (count : Nat),
      closeCount (relayGo ts dev upErr count chunks) = 0
  | [], count => by cases upErr <;> simp [relayGo, closeCount, isCloseAct]
  | c :: rest, count => by
      unfold relayGo
      split
      · simp [closeCount, isCloseAct]
      · split
        · rw [closeCount_cons_false (by rfl)]
          exact relayGo_closeCount ts dev upErr rest (count + 1)
        · exact relayGo_closeCount ts dev upErr rest (count + 1)

theorem relayGo_dataCount (ts : String) (dev : Bool) (upErr : Option JsErr) :
    ∀ (chunks : List Json) (count : Nat), count ≤ 1000 →
      dataCount (relayGo ts dev upErr count chunks) ≤ 1000 - count
  | [], count => by
      intro hc
      cases upErr <;> simp [relayGo, dataCount, isDataAct]
  | c :: rest, count => by
      intro hc
      unfold relayGo
      split
      · simp [dataCount, isDataAct]
      · next hover =>
          have hc1 : count + 1 ≤ 1000 := by omega
          have ih := relayGo_dataCount ts dev upErr rest (count + 1) hc1
          split
          · rw [dataCount_cons_true (by rfl)]
            omega
          · omega

theorem relayGo_ceiling (ts : String) (dev : Bool) (upErr : Option JsErr) :
    ∀ (chunks : List Json) (count : Nat), count ≤ 1000 →
      1000 < count + chunks.length →
      (relayGo ts dev upErr count chunks).getLast?
          = some (RAction.enq (Frame.completion ts 1001))
        ∧ errCount (relayGo ts dev upErr count chunks) = 0
  | [], count => by
      intro hc hlen
      simp at hlen
      omega
  | c :: rest, count => by
      intro hc hlen
      unfold relayGo
      split
      · next hover =>
          have : count = 1000 := by omega
          subst this
          exact ⟨rfl, by simp [errCount, isErrAct]⟩
      · next hover =>
          have hc1 : count + 1 ≤ 1000 := by omega
          have hlen1 : 1000 < (count + 1) + rest.length := by
            simp at hlen
            omega
          have ih := relayGo_ceiling ts dev upErr rest (count + 1) hc1 hlen1
          split
          · constructor
            · rw [List.getLast?_cons, ih.1]
              simp
            · rw [errCount_cons_false (by rfl)]
              exact ih.2
          · exact ih

/-!
Helper lemmas about newline splitting in the chunk parser.
-/

theorem splitNl_ne_nil : ∀ cs : List Char, splitNl cs ≠ []
  | [] => by simp [splitNl]
  | c :: cs => by
      unfold splitNl
      split
      · simp
      · split <;> simp

theorem splitNl_append : ∀ (a : List Char), a.getLast? = some '\n' →
    ∀ b, splitNl (a ++ b) = (splitNl a).dropLast ++ splitNl b
      ∧ (splitNl a).getLast? = some ([] : List Char)
      ∧ 2 ≤ (splitNl a).length
  | [], ha => by simp at ha
  | [c], ha => by
      intro b
      have hc : c = '\n' := by simpa using ha
      subst hc
      refine ⟨?_, rfl, by simp [splitNl]⟩
      show splitNl ('\n' :: b) = (splitNl ['\n']).dropLast ++ splitNl b
      simp [splitNl]
  | c :: c' :: a', ha => by
      intro b
      have ha' : (c' :: a').getLast? = some '\n' := by
        rw [List.getLast?_cons_cons] at ha
        exact ha
      obtain ⟨ih1, ih2, ih3⟩ := splitNl_append (c' :: a') ha' b
      obtain ⟨l0, ls, hsp⟩ : ∃ l0 ls, splitNl (c' :: a') = l0 :: ls := by
        cases h : splitNl (c' :: a') with
        | nil => exact absurd h (splitNl_ne_nil _)
        | cons x xs => exact ⟨x, xs, rfl⟩
      obtain ⟨l1, ls', rfl⟩ : ∃ l1 ls', ls = l1 :: ls' := by
        cases ls with
        | nil => rw [hsp] at ih3; simp at ih3
        | cons x xs => exact ⟨x, xs, rfl⟩
      by_cases hc : c = '\n'
      · subst hc
        have e1 : splitNl ('\n' :: ((c' :: a') ++ b))
            = [] :: splitNl ((c' :: a') ++ b) := by simp [splitNl]
        have e2 : splitNl ('\n' :: c' :: a') = [] :: splitNl (c' :: a') := by
          simp [splitNl]
        refine ⟨?_, ?_, ?_⟩
        · show splitNl ('\n' :: ((c' :: a') ++ b))
            = (splitNl ('\n' :: c' :: a')).dropLast ++ splitNl b
          rw [e1, ih1, e2, hsp, List.dropLast_cons₂]
          simp
        · rw [e2, hsp, List.getLast?_cons_cons, ← hsp, ih2]
        · rw [e2]
          simp
          omega
      · have e3 : ∀ (X : List Char) (h0 : List Char) (hs0 : List (List Char)),
            splitNl X = h0 :: hs0 → splitNl (c :: X) = (c :: h0) :: hs0 := by
          intro X h0 hs0 hX
          unfold splitNl
          rw [if_neg hc, hX]
        have hab : splitNl ((c' :: a') ++ b)
            = l0 :: (List.dropLast (l1 :: ls') ++ splitNl b) := by
          rw [ih1, hsp, List.dropLast_cons₂, List.cons_append]
        have e4 : splitNl (c :: c' :: a') = (c :: l0) :: l1 :: ls' := e3 _ _ _ hsp
        refine ⟨?_, ?_, ?_⟩
        · show splitNl (c :: ((c' :: a') ++ b))
            = (splitNl (c :: c' :: a')).dropLast ++ splitNl b
          rw [e3 _ _ _ hab, e4, List.dropLast_cons₂, List.cons_append]
        · rw [e4, List.getLast?_cons_cons, ← List.getLast?_cons_cons (a := l0),
            ← hsp, ih2]
        · rw [e4]
          simp

theorem parseChunk_nil : parseChunk [] = [] := rfl

theorem parseChunk_append_newline {a : List Char} (ha : a.getLast? = some '\n')
    (b : List Char) : parseChunk (a ++ b) = parseChunk a ++ parseChunk b := by
  obtain ⟨h1, h2, h3⟩ := splitNl_append a ha b
  have hrebuild : splitNl a = (splitNl a).dropLast ++ [([] : List Char)] :=
    (List.dropLast_append_getLast? _ (Option.mem_def.mpr h2)).symm
  unfold parseChunk
  rw [h1, List.filter_append, List.filterMap_append]
  conv_rhs => rw [hrebuild]
  rw [List.filter_append]
  simp


/-!
Helper lemmas about the validators and trimming.
-/

theorem strLen_zero_iff (t : String) : t.length = 0 ↔ t = "" := by
  constructor
  · intro h
    apply String.toList_inj.mp
    have hd : t.data = [] := List.length_eq_zero.mp h
    show t.data = "".data
    rw [hd]
  · intro h
    subst h
    rfl

theorem validateMessage_str (m : String) :
    (validateMessage (Json.str m)).valid = true ↔
      jsTrim m ≠ "" ∧ (jsTrim m).length ≤ 10000 := by
  by_cases hm : m = ""
  · subst hm
    simp [validateMessage, truthy, jsTrim, trimCh]
  · by_cases ht : jsTrim m = ""
    · simp [validateMessage, truthy, isStr, strVal, hm, ht]
    · by_cases hl : 10000 < (jsTrim m).length
      · simp [validateMessage, truthy, isStr, strVal, hm, ht, hl]
      · simp [validateMessage, truthy, isStr, strVal, hm, ht, hl]
        omega

theorem validateMessage_err (m : Json) :
    (validateMessage m).valid = false →
      (validateMessage m).error.isSome = true := by
  simp only [validateMessage]
  split_ifs <;> intro h <;> simp at h ⊢

theorem validateThreadId_str (t : String) :
    (validateThreadId (Json.str t)).valid = true ↔
      t ≠ "" ∧ t.length ≤ 100 := by
  by_cases ht : t = ""
  · subst ht
    simp [validateThreadId, truthy]
  · have hlen : ¬ t.length < 1 := by
      have h0 : t.length ≠ 0 := fun h => ht ((strLen_zero_iff t).mp h)
      omega
    by_cases hl : 100 < t.length
    · simp [validateThreadId, truthy, isStr, strVal, ht, hlen, hl]
    · simp [validateThreadId, truthy, isStr, strVal, ht, hlen, hl]
      omega

theorem validateThreadId_err (t : Json) :
    (validateThreadId t).valid = false →
      (validateThreadId t).error.isSome = true := by
  unfold validateThreadId
  split_ifs <;> intro h <;> simp at h ⊢

theorem trimCh_all_ws {l : List Char} (h : ∀ c ∈ l, wsCh c = true) :
    trimCh l = [] := by
  unfold trimCh
  rw [List.dropWhile_eq_nil_iff.mpr h]
  rfl

theorem trimCh_pad (n : Nat) :
    trimCh (List.replicate n ' ' ++ ['a']) = ['a'] := by
  unfold trimCh
  have h1 : (List.replicate n ' ' ++ ['a']).dropWhile wsCh = ['a'] := by
    induction n with
    | zero => simp [List.dropWhile, wsCh]
    | succ k ih =>
        rw [List.replicate_succ, List.cons_append, List.dropWhile_cons]
        rw [show wsCh ' ' = true from rfl]
        exact ih
  rw [h1]
  rfl

theorem reduceList_keeps (evs : List (Json × Nat)) :
    ∀ s : ClientState, (∀ p ∈ evs, ∃ c', goodPart p.1 c') →
      hasTrailingAssistant s = true →
      hasTrailingAssistant (reduceList s evs) = true := by
  induction evs with
  | nil => intro s _ hs; exact hs
  | cons p ps ih =>
      intro s hall hs
      obtain ⟨c', hc'⟩ := hall p (List.mem_cons_self p ps)
      have hstep : reduceList s (p :: ps) = reduceList (reduce s p.1 p.2) ps := rfl
      rw [hstep]
      exact ih _ (fun q hq => hall q (List.mem_cons_of_mem p hq))
        (reduce_goodPart_keeps s p.2 hc' hs)

theorem catchApply_eq (s : ClientState) (now : Nat) (hne : s.messages ≠ []) :
    catchApply s now = some (ClientState.mk
      (mapLast (fun m => Msg.mk m.role failMsg m.sources (some now)) s.messages)
      s.pending) := by
  unfold catchApply
  cases hm : s.messages with
  | nil => exact absurd hm hne
  | cons m rest => rfl

/-!
The claims, settled.
-/

/-- Concrete byte (character) sequences used for claim C1. -/
def cexBytes : List Char := ['d', 'a', 't', 'a', ':', ' ', '4', '\n']

/-- A second complete frame, used as the second read of the C1 witness. -/
def cexBytes2 : List Char := ['d', 'a', 't', 'a', ':', ' ', '5', '\n']

/-- C1, counterexample: the claim says splitting the byte sequence at ANY
point and feeding the pieces as two reads yields the same parsed events.
For the single frame `data: 4\n` split after two characters, the one-read
parse yields the event `4` while the two-read parse yields nothing: the
first read processes the partial line `da` immediately (no `data: `
marker) and discards it, and the second read's `ta: 4` line lacks the
marker too -- the straddling frame is lost, not retained. -/
theorem C1_cex :
    ¬ (parseChunk cexBytes
        = parseChunk (cexBytes.take 2) ++ parseChunk (cexBytes.drop 2)) := by
  intro h
  have h1 : parseChunk cexBytes = [Json.num 4] := rfl
  have h2 : parseChunk (cexBytes.take 2) ++ parseChunk (cexBytes.drop 2)
      = [] := rfl
  rw [h1, h2] at h
  exact List.cons_ne_nil _ _ h

/-- C1, amended: the read loop of `handleSubmit` splits each chunk on
newlines independently and retains no partial line across reads, so
chunk-boundary invariance only holds when the split point does not
bisect a line: splitting at either end of the sequence or immediately
after a newline character yields the same parsed events as a single
read; splitting inside a frame line can drop that frame (see the
counterexample). -/
theorem C1_thm (a b : List Char)
    (h : a = [] ∨ a.getLast? = some '\n' ∨ b = []) :
    parseChunk (a ++ b) = parseChunk a ++ parseChunk b := by
  rcases h with h | h | h
  · subst h
    rw [List.nil_append, parseChunk_nil, List.nil_append]
  · exact parseChunk_append_newline h b
  · subst h
    rw [List.append_nil, parseChunk_nil, List.append_nil]

/-- C1, witness: the amended statement at two concrete single-frame
reads split exactly at the frame boundary. -/
theorem C1_wit :
    parseChunk (cexBytes ++ cexBytes2)
      = parseChunk cexBytes ++ parseChunk cexBytes2 :=
  C1_thm cexBytes cexBytes2 (Or.inr (Or.inl rfl))

/-- A conversation state whose trailing assistant message reads `abc`,
used for claim C2. -/
def sAbc : ClientState :=
  ClientState.mk [Msg.mk Role.assistant "abc" none none] []

/-- C2, counterexample: the claim says the reducer reacts to the relay's
synthetic error frame by freezing the trailing assistant message to the
fixed failure string.  In fact the error frame carries a `type` field
but no `event` field, so the dispatch logs it as an unknown event and
leaves the state unchanged: after feeding the frame, the trailing
content is still `abc`, not `failMsg`. -/
theorem C2_cex :
    lastContent (reduce sAbc (frameToJson (Frame.errorF "boom" "t0")) 7)
      ≠ some failMsg := by
  intro h
  have h1 : lastContent (reduce sAbc (frameToJson (Frame.errorF "boom" "t0")) 7)
      = some "abc" := rfl
  rw [h1] at h
  exact absurd (Option.some.inj h) (by decide)

/-- C2, amended: the relay's synthetic error frame (`{type:'error',...}`)
carries no `event` field, so the reducer ignores it and the conversation
state is unchanged; the fixed failure string and a fresh timestamp are
written into the trailing message only by the transport-error catch
handler of `handleSubmit` (which runs when the fetch or read itself
fails, and throws if the message list is empty). -/
theorem C2_thm (s : ClientState) (d ts : String) (now : Nat) :
    reduce s (frameToJson (Frame.errorF d ts)) now = s
    ∧ (s.messages ≠ [] → ∃ s', catchApply s now = some s'
        ∧ lastContent s' = some failMsg ∧ lastStamp s' = some now) := by
  constructor
  · exact reduce_unknown s now rfl rfl
  · intro hne
    obtain ⟨x, hx⟩ : ∃ x, s.messages.getLast? = some x := by
      rw [List.getLast?_eq_getLast_of_ne_nil hne]
      exact ⟨_, rfl⟩
    refine ⟨_, catchApply_eq s now hne, ?_, ?_⟩
    · unfold lastContent
      simp [mapLast_getLast?, hx]
    · unfold lastStamp
      simp [mapLast_getLast?, hx]

/-- C2, witness: the amended statement at the concrete state `sAbc`. -/
theorem C2_wit :
    reduce sAbc (frameToJson (Frame.errorF "x" "y")) 3 = sAbc
    ∧ ∃ s', catchApply sAbc 3 = some s' ∧ lastContent s' = some failMsg
        ∧ lastStamp s' = some 3 :=
  ⟨(C2_thm sAbc "x" "y" 3).1, (C2_thm sAbc "x" "y" 3).2 (by simp [sAbc])⟩

/-- An opaque retrieved document used in claims C3 and C4. -/
def doc0 : Json := Json.obj [("pageContent", Json.str "excerpt")]

/-- A state with one trailing assistant message and a non-empty pending
citation snapshot. -/
def sPend : ClientState :=
  ClientState.mk [Msg.mk Role.assistant "" none none] [doc0]

/-- A retrieval-update event whose `data` payload is `null` (falsy). -/
def updNullEv : Json :=
  Json.obj [("event", Json.str "updates"), ("data", Json.null)]

/-- A well-formed retrieval-update event carrying the single document
`doc0`. -/
def updGoodEv : Json :=
  Json.obj [("event", Json.str "updates"),
    ("data", Json.obj [("retrieveDocuments",
      Json.obj [("documents", Json.arr [doc0])])])]

/-- A retrieval-update event with a truthy but malformed payload. -/
def updBadEv : Json :=
  Json.obj [("event", Json.str "updates"), ("data", Json.num 5)]

/-- A well-formed partial-message event with text `hi`. -/
def partEvHi : Json :=
  Json.obj [("event", Json.str "messages/partial"),
    ("data", Json.arr [Json.obj [("type", Json.str "ai"),
      ("content", Json.str "hi")]])]

/-- A well-formed partial-message event with text `He`. -/
def partEvHe : Json :=
  Json.obj [("event", Json.str "messages/partial"),
    ("data", Json.arr [Json.obj [("type", Json.str "ai"),
      ("content", Json.str "He")]])]

/-- C3, counterexample: the claim says that when a retrieval-update's
documents payload is not a well-formed list, the pending snapshot is
reset to empty, so the next partial-message attaches empty citations.
But an `updates` event whose `data` is `null` (certainly not a
well-formed list) fails the branch's truthiness test and is treated as
an unknown event: the pending snapshot `[doc0]` survives, and the next
partial-message attaches `[doc0]`, not `[]`. -/
theorem C3_cex :
    lastSources (reduce (reduce sPend updNullEv 1) partEvHi 2) = some [doc0]
    ∧ [doc0] ≠ ([] : List Json) := by
  constructor
  · rfl
  · simp

/-- C3, amended: after a retrieval-update event followed by a
well-formed partial-message event (against a trailing assistant
message): if the update's payload is a well-formed documents list `ds`,
the message's citations equal exactly `ds` (replacement, never merged);
if the payload is truthy but malformed, the pending snapshot is reset
and the citations are `[]`; if the payload is falsy (e.g. `null`), the
event is ignored as unknown and the citations are the unchanged prior
pending snapshot; in all cases the reducer returns normally rather than
raising. -/
theorem C3_thm (s : ClientState) (updEv e : Json) (t1 t2 : Nat) (c : String)
    (ds : List Json)
    (hs : hasTrailingAssistant s = true) (he : goodPart e c)
    (hu : jsEqStr (jsField updEv "event") "updates" = true) :
    (wfDocs (jsField updEv "data") → docsOf updEv = Json.arr ds →
      lastSources (reduce (reduce s updEv t1) e t2) = some ds)
    ∧ (truthy (jsField updEv "data") = true → ¬ wfDocs (jsField updEv "data") →
      lastSources (reduce (reduce s updEv t1) e t2) = some [])
    ∧ (truthy (jsField updEv "data") = false →
      reduce s updEv t1 = s
      ∧ lastSources (reduce (reduce s updEv t1) e t2) = some s.pending)
    ∧ (updEv ≠ Json.null → updEv ≠ Json.undef →
      reduceE s updEv t1 = Except.ok (reduce s updEv t1)) := by
  have hkeep : ∀ ds' : List Json,
      hasTrailingAssistant (ClientState.mk s.messages ds') = true := by
    intro ds'
    exact hs
  refine ⟨?_, ?_, ?_, ?_⟩
  · intro hwf hds
    rw [reduce_updates_wf s t1 hu hwf hds]
    rw [reduce_goodPart_lastSources _ t2 he (hkeep ds)]
  · intro htr hwf
    rw [reduce_updates_malformed s t1 hu htr hwf]
    rw [reduce_goodPart_lastSources _ t2 he (hkeep [])]
  · intro htr
    have hid := reduce_updates_falsy s t1 hu htr
    exact ⟨hid, by rw [hid, reduce_goodPart_lastSources s t2 he hs]⟩
  · intro h1 h2
    exact reduceE_eq_ok s updEv t1 h1 h2

/-- C3, witness: the amended statement at concrete events: a well-formed
update yields exactly `[doc0]`, a truthy malformed update yields `[]`,
and a `null`-payload update leaves the state unchanged. -/
theorem C3_wit :
    lastSources (reduce (reduce sPend updGoodEv 1) partEvHi 2) = some [doc0]
    ∧ lastSources (reduce (reduce sPend updBadEv 1) partEvHi 2) = some []
    ∧ reduce sPend updNullEv 1 = sPend := by
  refine ⟨?_, ?_, ?_⟩
  · exact (C3_thm sPend updGoodEv partEvHi 1 2 "hi" [doc0] rfl
      ⟨rfl, rfl, rfl, rfl, rfl⟩ rfl).1 ⟨rfl, rfl, rfl, rfl, rfl⟩ rfl
  · refine (C3_thm sPend updBadEv partEvHi 1 2 "hi" [] rfl
      ⟨rfl, rfl, rfl, rfl, rfl⟩ rfl).2.1 rfl ?_
    intro hwf
    have h2 := hwf.2.1
    rw [show jsField updBadEv "data" = Json.num 5 from rfl] at h2
    exact Bool.noConfusion h2
  · exact ((C3_thm sPend updNullEv partEvHi 1 2 "hi" [] rfl
      ⟨rfl, rfl, rfl, rfl, rfl⟩ rfl).2.2.1 rfl).1

/-- C4: for any run of well-formed plain-string partial-message events
applied to a state with a trailing assistant message, the trailing text
after the final event equals exactly the text of that most recent event
(the same statement applies to every prefix, so after each event the
text is the most recent event's text, never a concatenation). -/
theorem C4_thm (evs : List (Json × Nat)) (s : ClientState) (e : Json)
    (t : Nat) (c : String)
    (hall : ∀ p ∈ evs, ∃ c', goodPart p.1 c')
    (hs : hasTrailingAssistant s = true)
    (he : goodPart e c) :
    lastContent (reduceList s (evs ++ [(e, t)])) = some c := by
  have h1 : reduceList s (evs ++ [(e, t)]) = reduce (reduceList s evs) e t := by
    unfold reduceList
    rw [List.foldl_append]
    rfl
  rw [h1]
  exact reduce_goodPart_lastContent _ t he (reduceList_keeps evs s hall hs)

/-- C4, witness: after the partial texts `He` then `hi`, the trailing
message reads exactly `hi` (not `Hehi`). -/
theorem C4_wit :
    lastContent (reduceList sPend ([(partEvHe, 1)] ++ [(partEvHi, 2)]))
      = some "hi" := by
  refine C4_thm [(partEvHe, 1)] sPend partEvHi 2 "hi" ?_ rfl
    ⟨rfl, rfl, rfl, rfl, rfl⟩
  intro p hp
  have hp' : p = (partEvHe, 1) := by simpa using hp
  subst hp'
  exact ⟨"He", rfl, rfl, rfl, rfl, rfl⟩

/-- C5: over any upstream stream (including one that later throws), the
relay forwards at most 1,000 upstream events as wire frames, and when
the upstream has more than 1,000 events the trace contains no error
frame -- the ceiling is not treated as an error -- and still contains
the lifecycle completion frame carrying the final event counter (1001,
the count at which the loop broke). -/
theorem C5_thm (ts : String) (dev : Bool) (chunks : List Json)
    (upErr : Option JsErr) :
    dataCount (relayTrace ts dev chunks upErr) ≤ 1000
    ∧ (1000 < chunks.length →
        errCount (relayTrace ts dev chunks upErr) = 0
        ∧ RAction.enq (Frame.completion ts 1001)
            ∈ relayTrace ts dev chunks upErr) := by
  constructor
  · unfold relayTrace
    rw [dataCount_cons_false (by rfl)]
    have hap : dataCount (relayGo ts dev upErr 0 chunks ++ [RAction.close])
        = dataCount (relayGo ts dev upErr 0 chunks) := by
      simp [dataCount, List.filter_append, isDataAct]
    rw [hap]
    have := relayGo_dataCount ts dev upErr chunks 0 (by omega)
    omega
  · intro hlen
    have hc := relayGo_ceiling ts dev upErr chunks 0 (by omega) (by omega)
    constructor
    · unfold relayTrace
      rw [errCount_cons_false (by rfl)]
      have hap : errCount (relayGo ts dev upErr 0 chunks ++ [RAction.close])
          = errCount (relayGo ts dev upErr 0 chunks) := by
        simp [errCount, List.filter_append, isErrAct]
      rw [hap, hc.2]
    · have hmem : RAction.enq (Frame.completion ts 1001)
          ∈ relayGo ts dev upErr 0 chunks := by
        have h2 := List.dropLast_append_getLast? _ (Option.mem_def.mpr hc.1)
        rw [← h2]
        simp
      unfold relayTrace
      exact List.mem_cons_of_mem _ (List.mem_append_left _ hmem)

/-- A concrete upstream stream of 1,001 chunks, used as the C5
witness input. -/
def bigChunks : List Json := List.replicate 1001 Json.null

/-- C5, witness: the theorem instantiated at a 1,001-chunk upstream
stream. -/
theorem C5_wit :
    dataCount (relayTrace "t" false bigChunks none) ≤ 1000
    ∧ errCount (relayTrace "t" false bigChunks none) = 0
    ∧ RAction.enq (Frame.completion "t" 1001)
        ∈ relayTrace "t" false bigChunks none := by
  have h := C5_thm "t" false bigChunks none
  have hlen : 1000 < bigChunks.length := by
    have h1001 : bigChunks.length = 1001 := List.length_replicate 1001 Json.null
    omega
  exact ⟨h.1, (h.2 hlen).1, (h.2 hlen).2⟩

/-- C6: on the 200 path, the first action of the relay trace is the
enqueue of the synthetic connection frame (so it precedes every
forwarded upstream frame), and on every exit path -- normal
completion, ceiling, or mid-stream upstream error -- the final action
is the single close of the downstream controller. -/
theorem C6_thm (ts : String) (dev : Bool) (chunks : List Json)
    (upErr : Option JsErr) :
    (relayTrace ts dev chunks upErr).head?
        = some (RAction.enq (Frame.connection ts))
    ∧ (relayTrace ts dev chunks upErr).getLast? = some RAction.close
    ∧ closeCount (relayTrace ts dev chunks upErr) = 1 := by
  refine ⟨rfl, ?_, ?_⟩
  · unfold relayTrace
    rw [show RAction.enq (Frame.connection ts)
          :: (relayGo ts dev upErr 0 chunks ++ [RAction.close])
        = (RAction.enq (Frame.connection ts) :: relayGo ts dev upErr 0 chunks)
          ++ RAction.close :: [] from by simp]
    rw [List.getLast?_append_cons]
    rfl
  · unfold relayTrace
    rw [closeCount_cons_false (by rfl)]
    have hap : closeCount (relayGo ts dev upErr 0 chunks ++ [RAction.close])
        = closeCount (relayGo ts dev upErr 0 chunks) + 1 := by
      simp [closeCount, List.filter_append, isCloseAct]
    rw [hap, relayGo_closeCount]

/-- C7: for string inputs, `validateMessage` passes exactly the messages
that are non-empty after trimming and whose trimmed length is at most
10,000, and `validateThreadId` passes exactly the non-empty thread ids
of length at most 100; every failure carries a human-readable reason.
(The 10,000 limit is applied to the trimmed message -- see C10.) -/
theorem C7_thm (m tid : String) :
    ((validateMessage (Json.str m)).valid = true ↔
      (jsTrim m ≠ "" ∧ (jsTrim m).length ≤ 10000))
    ∧ ((validateMessage (Json.str m)).valid = false →
      (validateMessage (Json.str m)).error.isSome = true)
    ∧ ((validateThreadId (Json.str tid)).valid = true ↔
      (tid ≠ "" ∧ tid.length ≤ 100))
    ∧ ((validateThreadId (Json.str tid)).valid = false →
      (validateThreadId (Json.str tid)).error.isSome = true) :=
  ⟨validateMessage_str m, validateMessage_err _,
    validateThreadId_str tid, validateThreadId_err _⟩

/-- C7, witness: a valid pair passes and empty inputs fail with a
reason. -/
theorem C7_wit :
    (validateMessage (Json.str "hello")).valid = true
    ∧ (validateMessage (Json.str "")).error.isSome = true
    ∧ (validateThreadId (Json.str "t1")).valid = true
    ∧ (validateThreadId (Json.str "")).error.isSome = true := by
  refine ⟨?_, ?_, ?_, ?_⟩
  · exact (C7_thm "hello" "t1").1.mpr (by decide)
  · exact (C7_thm "" "t1").2.1 (by decide)
  · exact (C7_thm "hello" "t1").2.2.1.mpr (by decide)
  · exact (C7_thm "hello" "").2.2.2 (by decide)

/-- C8: the response classification of `POST /chat`: a body-parse or
validator failure yields 400 with body type `validation_error`; missing
configuration or a client-initialization failure yields 503 with type
`chat_error`; an upstream open-failure yields 404 when its message
mentions `thread not found`, else 429 when it mentions `quota` or
`rate limit`, else 503, all with type `chat_error`; and any other
thrown value is classified 500 with type `server_error`. -/
theorem C8_thm (r : ChatReq) (b : Json) (m : String) (e : JsErr) :
    (r.body = none → postChat r = ChatResp.jsonErr 400 "validation_error"
      "Invalid request format. Please ensure you are sending valid JSON.")
    ∧ (r.body = some b → isNullJ b = false →
      (validateMessage (jsField b "message")).valid = false →
      postChat r = ChatResp.jsonErr 400 "validation_error"
        ((validateMessage (jsField b "message")).error.getD ""))
    ∧ (r.body = some b → isNullJ b = false →
      (validateMessage (jsField b "message")).valid = true →
      (validateThreadId (jsField b "threadId")).valid = false →
      postChat r = ChatResp.jsonErr 400 "validation_error"
        ((validateThreadId (jsField b "threadId")).error.getD ""))
    ∧ (r.body = some b → isNullJ b = false →
      (validateMessage (jsField b "message")).valid = true →
      (validateThreadId (jsField b "threadId")).valid = true →
      r.envAssistant = false →
      postChat r = ChatResp.jsonErr 503 "chat_error"
        "Service configuration error: Chat service is not properly configured")
    ∧ (r.body = some b → isNullJ b = false →
      (validateMessage (jsField b "message")).valid = true →
      (validateThreadId (jsField b "threadId")).valid = true →
      r.envAssistant = true → r.clientInitErr = some e →
      postChat r = ChatResp.jsonErr 503 "chat_error"
        "Failed to initialize chat service. Please try again later.")
    ∧ (r.body = some b → isNullJ b = false →
      (validateMessage (jsField b "message")).valid = true →
      (validateThreadId (jsField b "threadId")).valid = true →
      r.envAssistant = true → r.clientInitErr = none →
      r.openErr = some (JsErr.withMsg m) →
      (strContainsSub m "thread not found" = true →
        postChat r = ChatResp.jsonErr 404 "chat_error"
          "Chat session not found. Please start a new conversation.")
      ∧ (strContainsSub m "thread not found" = false →
          (strContainsSub m "quota" || strContainsSub m "rate limit") = true →
          postChat r = ChatResp.jsonErr 429 "chat_error"
            "Service temporarily unavailable due to high demand. Please try again in a few minutes.")
      ∧ (strContainsSub m "thread not found" = false →
          (strContainsSub m "quota" || strContainsSub m "rate limit") = false →
          postChat r = ChatResp.jsonErr 503 "chat_error"
            "Unable to start chat session. Please try again."))
    ∧ (classifyThrown (ThrownErr.other e) = ChatResp.jsonErr 500 "server_error"
        "An unexpected error occurred while processing your request.") := by
  refine ⟨?_, ?_, ?_, ?_, ?_, ?_, rfl⟩
  · intro hb
    simp [postChat, tryChat, hb, classifyThrown]
  · intro hb hn hmv
    simp [postChat, tryChat, hb, hn, hmv, classifyThrown]
  · intro hb hn hmv htv
    simp [postChat, tryChat, hb, hn, hmv, htv, classifyThrown]
  · intro hb hn hmv htv henv
    simp [postChat, tryChat, hb, hn, hmv, htv, henv, classifyThrown]
  · intro hb hn hmv htv henv hci
    simp [postChat, tryChat, hb, hn, hmv, htv, henv, hci, classifyThrown]
  · intro hb hn hmv htv henv hci hop
    refine ⟨?_, ?_, ?_⟩
    · intro hnf
      simp [postChat, tryChat, hb, hn, hmv, htv, henv, hci, hop,
        openErrKind, hnf, classifyThrown]
    · intro hnf hq
      simp [postChat, tryChat, hb, hn, hmv, htv, henv, hci, hop,
        openErrKind, hnf, hq, classifyThrown]
    · intro hnf hq
      simp [postChat, tryChat, hb, hn, hmv, htv, henv, hci, hop,
        openErrKind, hnf, hq, classifyThrown]

/-- A well-formed request body used in the C8 witness. -/
def okBody : Json :=
  Json.obj [("message", Json.str "hello"), ("threadId", Json.str "t1")]

/-- A request whose message is empty. -/
def rBadMsg : ChatReq :=
  ChatReq.mk (some (Json.obj [("message", Json.str ""),
    ("threadId", Json.str "t1")])) true none none

/-- A request whose upstream open fails with a thread-not-found
message. -/
def rNF : ChatReq :=
  ChatReq.mk (some okBody) true none (some (JsErr.withMsg "thread not found"))

/-- A request whose upstream open fails with a quota message. -/
def rQ : ChatReq :=
  ChatReq.mk (some okBody) true none (some (JsErr.withMsg "quota exceeded"))

/-- A request whose upstream open fails with an unclassified message. -/
def rOther : ChatReq :=
  ChatReq.mk (some okBody) true none (some (JsErr.withMsg "boom"))

/-- A request with the assistant id unset. -/
def rNoEnv : ChatReq := ChatReq.mk (some okBody) false none none

/-- C8, witness: the classification at five concrete requests covering
the 400, 503-config, 404, 429 and 503-other paths. -/
theorem C8_wit :
    postChat rBadMsg = ChatResp.jsonErr 400 "validation_error"
      "Message is required"
    ∧ postChat rNoEnv = ChatResp.jsonErr 503 "chat_error"
      "Service configuration error: Chat service is not properly configured"
    ∧ postChat rNF = ChatResp.jsonErr 404 "chat_error"
      "Chat session not found. Please start a new conversation."
    ∧ postChat rQ = ChatResp.jsonErr 429 "chat_error"
      "Service temporarily unavailable due to high demand. Please try again in a few minutes."
    ∧ postChat rOther = ChatResp.jsonErr 503 "chat_error"
      "Unable to start chat session. Please try again." := by
  refine ⟨?_, ?_, ?_, ?_, ?_⟩
  · have h := (C8_thm rBadMsg (Json.obj [("message", Json.str ""),
      ("threadId", Json.str "t1")]) "" JsErr.notError).2.1
      rfl rfl (by decide)
    have e : ((validateMessage (jsField (Json.obj [("message", Json.str ""),
        ("threadId", Json.str "t1")]) "message")).error.getD "")
        = "Message is required" := by decide
    rw [e] at h
    exact h
  · exact (C8_thm rNoEnv okBody "" JsErr.notError).2.2.2.1
      rfl rfl (by decide) (by decide) rfl
  · exact ((C8_thm rNF okBody "thread not found" JsErr.notError).2.2.2.2.2.1
      rfl rfl (by decide) (by decide) rfl rfl rfl).1 (by decide)
  · exact ((C8_thm rQ okBody "quota exceeded" JsErr.notError).2.2.2.2.2.1
      rfl rfl (by decide) (by decide) rfl rfl rfl).2.1 (by decide) (by decide)
  · exact ((C8_thm rOther okBody "boom" JsErr.notError).2.2.2.2.2.1
      rfl rfl (by decide) (by decide) rfl rfl rfl).2.2 (by decide) (by decide)

/-- C9, counterexample: the claim says the reducer raises no error of
its own for any input event; but for the event `null` -- which the
parser produces from a `data: null` frame -- the destructuring
`const {event, data} = sseEvent` throws a `TypeError`. -/
theorem C9_cex :
    reduceE (ClientState.mk [] []) Json.null 0
      = Except.error "TypeError" := rfl

/-- C9, amended: for every parsed event other than `null` (and the
unreachable `undefined`), the reducer returns normally, and its result
is the pure function `reduce` of the state, the event and the clock
reading -- the same inputs always produce the identical state, with no
effect other than the returned value. -/
theorem C9_thm (s : ClientState) (ev : Json) (now : Nat)
    (h1 : ev ≠ Json.null) (h2 : ev ≠ Json.undef) :
    reduceE s ev now = Except.ok (reduce s ev now) :=
  reduceE_eq_ok s ev now h1 h2

/-- C9, witness: the amended statement at a concrete partial-message
event. -/
theorem C9_wit :
    reduceE sPend partEvHi 2 = Except.ok (reduce sPend partEvHi 2) :=
  C9_thm sPend partEvHi 2 (by simp [partEvHi]) (by simp [partEvHi])

/-- C10: the 10,000-character limit is applied to the trimmed message:
every string whose trimmed form is non-empty and at most 10,000
characters passes (with no constraint on the raw length), and every
whitespace-only string fails. -/
theorem C10_thm (m : String) :
    (jsTrim m ≠ "" ∧ (jsTrim m).length ≤ 10000 →
      (validateMessage (Json.str m)).valid = true)
    ∧ ((∀ c ∈ m.toList, wsCh c = true) →
      (validateMessage (Json.str m)).valid = false) := by
  constructor
  · intro h
    exact (validateMessage_str m).mpr h
  · intro h
    have htr : jsTrim m = "" := by
      unfold jsTrim
      rw [trimCh_all_ws h]
    cases hv : (validateMessage (Json.str m)).valid
    · rfl
    · exact absurd ((validateMessage_str m).mp hv).1 (by simp [htr])

/-- A raw message of 10,051 characters whose trimmed form is the single
character `a`. -/
def bigRaw : String := String.mk (List.replicate 10050 ' ' ++ ['a'])

/-- C10, witness: the 10,051-character `bigRaw` passes validation
because its trimmed length is 1, and a whitespace-only string fails. -/
theorem C10_wit :
    (validateMessage (Json.str bigRaw)).valid = true
    ∧ 10000 < bigRaw.length
    ∧ (validateMessage (Json.str "   ")).valid = false := by
  refine ⟨?_, ?_, (C10_thm "   ").2 (by decide)⟩
  · apply (C10_thm bigRaw).1
    have h : jsTrim bigRaw = String.mk ['a'] := by
      unfold jsTrim bigRaw
      rw [show (String.mk (List.replicate 10050 ' ' ++ ['a'])).toList
          = List.replicate 10050 ' ' ++ ['a'] from rfl]
      rw [trimCh_pad]
    rw [h]
    constructor
    · intro h0
      have hdata := congrArg String.data h0
      simp at hdata
    · rw [show (String.mk ['a']).length = 1 from rfl]
      omega
  · have hlen : bigRaw.length = 10051 := by
      rw [show bigRaw.length = (List.replicate 10050 ' ' ++ ['a']).length
        from rfl]
      rw [List.length_append, List.length_replicate]
      rfl
    omega
